import Mathlib

/-!
Shallow embedding of the `bqext` package (query-builder, single-row executor,
and partition/dedup workflow built on a tabular query service).

The external query-execution service is a parameter: a function from a query
configuration to either an error or the list of rows the cursor will yield.
Each operation additionally records the list of query configurations it
actually submitted to the service, so that statements of the form "performs
no query / submits no job" are provable.
-/

namespace Bqext

/-- A reference to a table: `dsExt.BqClient.DatasetInProject(project, dataset).Table(table)`. -/
structure TableRef where
  projectID : String
  datasetID : String
  tableID : String
  deriving Repr, DecidableEq

/-- Write disposition of a destination write.  `unspecified` is the Go zero
value `""`, which leaves the choice to the query service (its default). -/
inductive TableWriteDisposition where
  | unspecified
  | writeAppend
  | writeTruncate
  | writeEmpty
  deriving Repr, DecidableEq

/-- The fields of `bigquery.QueryConfig` that the `bqext` code reads or
writes.  Default field values are the Go zero values, as produced by
`BqClient.Query`.  `q` is the query text (field `Q`). -/
structure QueryConfig where
  q : String
  dryRun : Bool := false
  useLegacySQL : Bool := false
  defaultProjectID : String := ""
  defaultDatasetID : String := ""
  dst : Option TableRef := none
  allowLargeResults : Bool := false
  disableFlattenedResults : Bool := false
  writeDisposition : TableWriteDisposition := .unspecified
  deriving Repr, DecidableEq

/-- `Dataset` of `bqext`: wraps the client and a dataset handle; the parts
visible to the code under verification are the project and dataset ids. -/
structure Dataset where
  projectID : String
  datasetID : String
  deriving Repr, DecidableEq

/-- `BqClient.Query(query)`: a fresh `QueryConfig` holding the query text,
with every other field at its zero value. -/
def mkQuery (query : String) : QueryConfig := { q := query }

/-- `Dataset.ResultQuery(query, dryRun)`: stamps `dryRun`, turns on
`useLegacySQL` exactly when the text starts with `#legacySQL`
(Go `strings.HasPrefix`), and sets the default project/dataset ids. -/
def ResultQuery (dsExt : Dataset) (query : String) (dryRun : Bool) : QueryConfig :=
  let q := mkQuery query
  let q := { q with dryRun := dryRun }
  let q := if query.startsWith "#legacySQL" then { q with useLegacySQL := true } else q
  { q with defaultProjectID := dsExt.projectID, defaultDatasetID := dsExt.datasetID }

/-- `Dataset.DestinationQuery(query, dest)`: sets the destination table when
one is given, otherwise forces a dry run; always allows large results,
disables result flattening, and sets the default project/dataset ids. -/
def DestinationQuery (dsExt : Dataset) (query : String) (dest : Option TableRef) : QueryConfig :=
  let q := mkQuery query
  let q :=
    match dest with
    | some d => { q with dst := some d }
    | none => { q with dryRun := true }
  { q with allowLargeResults := true,
           defaultProjectID := dsExt.projectID,
           defaultDatasetID := dsExt.datasetID,
           disableFlattenedResults := true }

/-- Classification of the `structPtr` argument of `QueryAndParse` by the two
`reflect` checks: a pointer to a struct, a pointer to something that is not a
struct, or not a pointer at all. -/
inductive ArgKind where
  | ptrToStruct
  | ptrToNonStruct
  | nonPtr
  deriving Repr, DecidableEq

/-- Outcome of one `it.Next` call on the row iterator: either
`iterator.Done` or the next row. -/
inductive NextResult (R : Type) where
  | done
  | row (r : R)
  deriving Repr, DecidableEq

/-- The row cursor, modelled as the list of rows the query yields:
`next` returns the head row and the rest, or reports done. -/
def next {R : Type} : List R → NextResult R × List R
  | [] => (.done, [])
  | r :: rest => (.row r, rest)

/-- The errors `QueryAndParse` can return.  `argNotPtrToStruct` is the
"Argument should be ptr to struct" error; `noRows` is `iterator.Done`
propagated verbatim from the first `Next` on an empty cursor; `decodeError`
is a failure of the first `Next` to decode the row into the target struct;
`multipleRows` is the "multiple row data" error. -/
inductive QPError (E D : Type) where
  | argNotPtrToStruct
  | readError (e : E)
  | noRows
  | decodeError (d : D)
  | multipleRows
  deriving DecidableEq

/-- What a `QueryAndParse` call leaves behind: the final value of the struct
pointed to by the caller's pointer, the returned error (if any), the cursor
state it left unconsumed, and the query configurations it submitted to the
query service. -/
structure QPOutcome (S R E D : Type) where
  target : S
  error : Option (QPError E D)
  leftover : List R
  executed : List QueryConfig
  deriving DecidableEq

/-- `Dataset.QueryAndParse(q, structPtr)`.  `argKind` classifies `structPtr`;
`read` is the query service (`query.Read`); `decode` is the typed decode of a
row into the target struct performed by the first `it.Next(structPtr)`;
`prior` is the value of the caller's struct before the call.  The second
`it.Next(&row)` decodes into a throwaway generic map and so can only yield a
row or done. -/
def QueryAndParse {S R E D : Type} (dsExt : Dataset) (qs : String)
    (argKind : ArgKind)
    (read : QueryConfig → Except E (List R))
    (decode : R → Except D S)
    (prior : S) : QPOutcome S R E D :=
  match argKind with
  | .nonPtr => ⟨prior, some .argNotPtrToStruct, [], []⟩
  | .ptrToNonStruct => ⟨prior, some .argNotPtrToStruct, [], []⟩
  | .ptrToStruct =>
    let query := ResultQuery dsExt qs false
    match read query with
    | .error err => ⟨prior, some (.readError err), [], [query]⟩
    | .ok rows =>
      match next rows with
      | (.done, rest) => ⟨prior, some .noRows, rest, [query]⟩
      | (.row r, rest) =>
        match decode r with
        | .error d => ⟨prior, some (.decodeError d), rest, [query]⟩
        | .ok t =>
          match next rest with
          | (.done, rest2) => ⟨t, none, rest2, [query]⟩
          | (.row _, rest2) => ⟨t, some .multipleRows, rest2, [query]⟩

/-- `PartitionInfo`: basic information about a partition.  Timestamps are
modelled as integers (milliseconds); default field values are the Go zero
values of `PartitionInfo{}`. -/
structure PartitionInfo where
  PartitionID : String := ""
  CreationTime : Int := 0
  LastModified : Int := 0
  deriving Repr, DecidableEq

/-- The legacy-SQL query text built by `GetPartitionInfo` via `fmt.Sprintf`:
selects partition id and timestamps from the partition-summary pseudo-table
of `table`, filtered by equality with `partition`. -/
def partitionInfoQuery (table partition : String) : String :=
  "#legacySQL\n\t\tSELECT\n\t\t  partition_id as PartitionID,\n\t\t  msec_to_timestamp(creation_time) AS CreationTime,\n\t\t  msec_to_timestamp(last_modified_time) AS LastModified\n\t\tFROM\n\t\t  [" ++ table ++ "$__PARTITIONS_SUMMARY__]\n\t\twhere partition_id = \"" ++ partition ++ "\" "

/-- The tail of `GetPartitionInfo`: on any error from `QueryAndParse` return
the zero-valued `PartitionInfo{}` together with the error, otherwise return
the populated struct. -/
def partitionInfoResult {E : Type} (out : QPOutcome PartitionInfo PartitionInfo E Unit) :
    PartitionInfo × Option (QPError E Unit) :=
  match out.error with
  | some e => ({}, some e)
  | none => (out.target, none)

/-- `Dataset.GetPartitionInfo(table, partition)`: builds the legacy query,
delegates to `QueryAndParse` with the address of a zero-valued
`PartitionInfo` (a pointer to a struct; rows of this query decode directly
into `PartitionInfo`, so the typed decode cannot fail), and discards the
struct on error. -/
def GetPartitionInfo {E : Type} (dsExt : Dataset)
    (read : QueryConfig → Except E (List PartitionInfo))
    (table partition : String) : PartitionInfo × Option (QPError E Unit) :=
  partitionInfoResult
    (QueryAndParse dsExt (partitionInfoQuery table partition) .ptrToStruct read
      (fun r => .ok r) ({} : PartitionInfo))

/-- Modelled from the spec: the external query-execution service (spec §6)
evaluating the partition-summary query built by `GetPartitionInfo`.  Per
spec §4.4 the query "filters by `partitionID`", so the service returns
exactly the summary rows whose partition id equals the requested one.  The
query engine itself is not part of this repository. -/
def runPartitionSummaryQuery (tbl : List PartitionInfo) (partition : String) :
    QueryConfig → Except Unit (List PartitionInfo) :=
  fun _ => .ok (tbl.filter (fun p => p.PartitionID == partition))

/-- `GetPartitionInfo` run against the spec-modelled partition-summary
service for a summary table `tbl`. -/
def GetPartitionInfoOn (dsExt : Dataset) (tbl : List PartitionInfo)
    (table partition : String) : PartitionInfo × Option (QPError Unit Unit) :=
  GetPartitionInfo dsExt (runPartitionSummaryQuery tbl partition) table partition

/-- Go `strings.Contains(table, "$")`: since the pattern is the single
character `$`, this is occurrence of that character in `table`. -/
def containsPartitionQualifier (table : String) : Bool :=
  table.data.contains '$'

/-- The dedup query text: `fmt.Sprintf(dedupTemplate, dedupOn, src)`. -/
def dedupTemplate (dedupOn src : String) : String :=
  "\n\t#standardSQL\n\t# Delete all duplicate rows based on test_id\n\tSELECT * except (row_number)\n\tFROM (\n\t  SELECT *, ROW_NUMBER() OVER (PARTITION BY " ++ dedupOn ++
    ") row_number\n\t  FROM `" ++ src ++ "`)\n\tWHERE row_number = 1"

/-- The errors `Dedup` can return: the "Destination table does not specify
partition" precondition failure, an error from submitting the job
(`q.Run`), or an error from waiting for it (`job.Wait`). -/
inductive DedupError (E W : Type) where
  | missingPartitionQualifier
  | runError (e : E)
  | waitError (w : W)
  deriving DecidableEq

/-- The query configuration `Dedup` submits once its precondition holds:
a destination query for the dedup template, targeting
`project.dataset.table`, with write disposition forced to truncate exactly
when `overwrite` is set. -/
def dedupQueryConfig (dsExt : Dataset) (src dedupOn : String) (overwrite : Bool)
    (project dataset table : String) : QueryConfig :=
  let q := DestinationQuery dsExt (dedupTemplate dedupOn src) (some ⟨project, dataset, table⟩)
  if overwrite then { q with writeDisposition := .writeTruncate } else q

/-- `Dataset.Dedup(src, dedupOn, overwrite, project, dataset, table)`.
`run` is `q.Run` (submits the job), `wait` is `job.Wait` (blocks for the
terminal status; it yields an optional status and an optional error).  The
second component of the result is the list of query configurations submitted
to the service. -/
def Dedup {J S E W : Type} (dsExt : Dataset) (src dedupOn : String) (overwrite : Bool)
    (project dataset table : String)
    (run : QueryConfig → Except E J)
    (wait : J → Option S × Option W) :
    (Option S × Option (DedupError E W)) × List QueryConfig :=
  if !(containsPartitionQualifier table) then
    ((none, some .missingPartitionQualifier), [])
  else
    let q := dedupQueryConfig dsExt src dedupOn overwrite project dataset table
    match run q with
    | .error e => ((none, some (.runError e)), [q])
    | .ok job =>
      let res := wait job
      ((res.1, (res.2).map DedupError.waitError), [q])

/-!  Theorems about the embedded operations, one per claim. -/

/-- C5: a query descriptor built by `ResultQuery` has `useLegacySQL` set to
true if and only if the query text begins with the literal prefix
`#legacySQL`; no other input influences the flag. -/
theorem resultQuery_legacy_dialect (dsExt : Dataset) (query : String) (dryRun : Bool) :
    (ResultQuery dsExt query dryRun).useLegacySQL = query.startsWith "#legacySQL" := by
  by_cases h : query.startsWith "#legacySQL" <;>
    simp [ResultQuery, mkQuery, h]

/-- C6: a descriptor built by `DestinationQuery` always has
`allowLargeResults = true` and result flattening disabled; its `dryRun` flag
is forced on exactly when no destination table is supplied, and the supplied
destination (if any) becomes the descriptor's destination table. -/
theorem destinationQuery_flags (dsExt : Dataset) (query : String) (dest : Option TableRef) :
    (DestinationQuery dsExt query dest).allowLargeResults = true ∧
    (DestinationQuery dsExt query dest).disableFlattenedResults = true ∧
    (DestinationQuery dsExt query dest).dryRun = dest.isNone ∧
    (DestinationQuery dsExt query dest).dst = dest := by
  cases dest <;> simp [DestinationQuery, mkQuery]

/-- C9: when the target argument of `QueryAndParse` is not a pointer to a
struct, the call returns the "Argument should be ptr to struct" error with
the target left at its prior value, submits no query to the service
(`executed = []`), and reads nothing from any cursor — for every service. -/
theorem queryAndParse_rejects_bad_target {S R E D : Type} (dsExt : Dataset) (qs : String)
    (argKind : ArgKind)
    (read : QueryConfig → Except E (List R)) (decode : R → Except D S) (prior : S)
    (h : argKind ≠ .ptrToStruct) :
    QueryAndParse dsExt qs argKind read decode prior =
      ⟨prior, some .argNotPtrToStruct, [], []⟩ := by
  cases argKind with
  | ptrToStruct => exact absurd rfl h
  | ptrToNonStruct => rfl
  | nonPtr => rfl

/-- Witness for C9 at a concrete ill-typed argument. -/
theorem queryAndParse_rejects_bad_target_witness :
    ArgKind.nonPtr ≠ ArgKind.ptrToStruct ∧
    QueryAndParse (⟨"proj", "ds"⟩ : Dataset) "SELECT 1" .nonPtr
        (fun _ => (.ok [0] : Except Unit (List Nat)))
        (fun r => (.ok r : Except Unit Nat)) 7 =
      ⟨7, some .argNotPtrToStruct, [], []⟩ :=
  ⟨by decide,
   queryAndParse_rejects_bad_target ⟨"proj", "ds"⟩ "SELECT 1" .nonPtr
     (fun _ => .ok [0]) (fun r => .ok r) 7 (by decide)⟩

/-- C1: single-row contract of `QueryAndParse` for a well-typed target and a
cursor yielding `rows`: zero rows returns the no-rows error
(`iterator.Done` propagated) and leaves the target at its prior value;
exactly one row that decodes populates the target with no error; two or more
rows (with the first decoding) returns the multiple-rows error; and a
successful return happens only when the cursor yielded exactly one row. -/
theorem queryAndParse_single_row_contract {S R E D : Type} (dsExt : Dataset) (qs : String)
    (read : QueryConfig → Except E (List R)) (decode : R → Except D S)
    (prior : S) (rows : List R)
    (hread : read (ResultQuery dsExt qs false) = .ok rows) :
    ((rows = [] →
        (QueryAndParse dsExt qs .ptrToStruct read decode prior).error = some .noRows ∧
        (QueryAndParse dsExt qs .ptrToStruct read decode prior).target = prior) ∧
     (∀ r t, rows = [r] → decode r = .ok t →
        (QueryAndParse dsExt qs .ptrToStruct read decode prior).error = none ∧
        (QueryAndParse dsExt qs .ptrToStruct read decode prior).target = t) ∧
     (∀ r r2 rest t, rows = r :: r2 :: rest → decode r = .ok t →
        (QueryAndParse dsExt qs .ptrToStruct read decode prior).error = some .multipleRows) ∧
     ((QueryAndParse dsExt qs .ptrToStruct read decode prior).error = none →
        ∃ r t, rows = [r] ∧ decode r = .ok t ∧
          (QueryAndParse dsExt qs .ptrToStruct read decode prior).target = t)) := by
  cases rows with
  | nil => simp [QueryAndParse, hread, next]
  | cons r rest =>
    cases rest with
    | nil =>
      cases hd : decode r with
      | error d =>
        simp [QueryAndParse, hread, next, hd]
        rintro r1 t rfl h
        rw [hd] at h
        exact Except.noConfusion h
      | ok t =>
        simp [QueryAndParse, hread, next, hd]
        rintro r1 t1 rfl h
        rw [hd] at h
        exact Except.ok.inj h
    | cons r2 rest2 =>
      cases hd : decode r with
      | error d =>
        simp [QueryAndParse, hread, next, hd]
        rintro r1 a b t rfl rfl rfl h
        rw [hd] at h
        exact Except.noConfusion h
      | ok t =>
        simp [QueryAndParse, hread, next, hd]

/-- Witness for C1 at a concrete one-row cursor. -/
theorem queryAndParse_single_row_contract_witness :
    (QueryAndParse (⟨"proj", "ds"⟩ : Dataset) "SELECT 1" .ptrToStruct
        (fun _ => (.ok [5] : Except Unit (List Nat)))
        (fun r => (.ok r : Except Unit Nat)) 7).error = none ∧
    (QueryAndParse (⟨"proj", "ds"⟩ : Dataset) "SELECT 1" .ptrToStruct
        (fun _ => (.ok [5] : Except Unit (List Nat)))
        (fun r => (.ok r : Except Unit Nat)) 7).target = 5 :=
  (queryAndParse_single_row_contract ⟨"proj", "ds"⟩ "SELECT 1"
      (fun _ => .ok [5]) (fun r => .ok r) 7 [5] rfl).2.1 5 5 rfl rfl

/-- C4: once the first row has been decoded into the target, `QueryAndParse`
reads exactly one more row from the cursor (into the throwaway generic row
buffer), leaving the rest of the cursor unconsumed, and it returns the
multiple-rows error exactly when that extra read does not report done. -/
theorem queryAndParse_singularity_check {S R E D : Type} (dsExt : Dataset) (qs : String)
    (read : QueryConfig → Except E (List R)) (decode : R → Except D S)
    (prior : S) (r : R) (rest : List R) (t : S)
    (hread : read (ResultQuery dsExt qs false) = .ok (r :: rest))
    (hdec : decode r = .ok t) :
    (QueryAndParse dsExt qs .ptrToStruct read decode prior).leftover = rest.tail ∧
    ((QueryAndParse dsExt qs .ptrToStruct read decode prior).error = some .multipleRows ↔
      (next rest).1 ≠ .done) := by
  cases rest <;> simp [QueryAndParse, hread, hdec, next]

/-- Witness for C4 at a concrete two-row cursor. -/
theorem queryAndParse_singularity_check_witness :
    (QueryAndParse (⟨"proj", "ds"⟩ : Dataset) "SELECT 1" .ptrToStruct
        (fun _ => (.ok [1, 2] : Except Unit (List Nat)))
        (fun r => (.ok r : Except Unit Nat)) 0).leftover = List.tail [2] ∧
    ((QueryAndParse (⟨"proj", "ds"⟩ : Dataset) "SELECT 1" .ptrToStruct
        (fun _ => (.ok [1, 2] : Except Unit (List Nat)))
        (fun r => (.ok r : Except Unit Nat)) 0).error = some .multipleRows ↔
      (next [2]).1 ≠ .done) :=
  queryAndParse_singularity_check ⟨"proj", "ds"⟩ "SELECT 1"
    (fun _ => .ok [1, 2]) (fun r => .ok r) 0 1 [2] 1 rfl rfl

/-- C2: `Dedup` on a destination table name without the partition qualifier
`$` fails with the missing-partition-qualifier error and submits nothing to
the service, for every service; on a table name containing `$` it proceeds,
building and submitting exactly the dedup query configuration. -/
theorem dedup_partition_qualifier {J S E W : Type} (dsExt : Dataset)
    (src dedupOn : String) (overwrite : Bool) (project dataset table : String)
    (run : QueryConfig → Except E J) (wait : J → Option S × Option W) :
    (containsPartitionQualifier table = false →
       Dedup dsExt src dedupOn overwrite project dataset table run wait =
         ((none, some .missingPartitionQualifier), [])) ∧
    (containsPartitionQualifier table = true →
       (Dedup dsExt src dedupOn overwrite project dataset table run wait).2 =
         [dedupQueryConfig dsExt src dedupOn overwrite project dataset table]) := by
  constructor
  · intro h
    simp [Dedup, h]
  · intro h
    rcases hr : run (dedupQueryConfig dsExt src dedupOn overwrite project dataset table)
      with e | job <;> simp [Dedup, h, hr]

/-- Witness for C2: the destination "mytable" fails and submits nothing; the
destination "mytable$20230101" proceeds and submits the dedup query. -/
theorem dedup_partition_qualifier_witness :
    (containsPartitionQualifier "mytable" = false ∧
      Dedup (⟨"proj", "ds"⟩ : Dataset) "src" "test_id" true "destproj" "destds" "mytable"
          (fun _ => (.ok 0 : Except Unit Nat))
          (fun _ => ((some 0, none) : Option Nat × Option Unit)) =
        ((none, some .missingPartitionQualifier), [])) ∧
    (containsPartitionQualifier "mytable$20230101" = true ∧
      (Dedup (⟨"proj", "ds"⟩ : Dataset) "src" "test_id" true "destproj" "destds" "mytable$20230101"
          (fun _ => (.ok 0 : Except Unit Nat))
          (fun _ => ((some 0, none) : Option Nat × Option Unit))).2 =
        [dedupQueryConfig ⟨"proj", "ds"⟩ "src" "test_id" true "destproj" "destds" "mytable$20230101"]) :=
  ⟨⟨by decide,
    (dedup_partition_qualifier ⟨"proj", "ds"⟩ "src" "test_id" true "destproj" "destds" "mytable"
      (fun _ => .ok 0) (fun _ => (some 0, none))).1 (by decide)⟩,
   ⟨by decide,
    (dedup_partition_qualifier ⟨"proj", "ds"⟩ "src" "test_id" true "destproj" "destds" "mytable$20230101"
      (fun _ => .ok 0) (fun _ => (some 0, none))).2 (by decide)⟩⟩

/-- C3: when `Dedup` passes the precondition and the job is submitted
successfully, the returned pair is exactly the status produced by waiting
for the job together with the wait error (if any) — so the terminal status
is returned alongside the error whether the wait succeeds or fails. -/
theorem dedup_returns_status_with_error {J S E W : Type} (dsExt : Dataset)
    (src dedupOn : String) (overwrite : Bool) (project dataset table : String)
    (run : QueryConfig → Except E J) (wait : J → Option S × Option W) (job : J)
    (h : containsPartitionQualifier table = true)
    (hrun : run (dedupQueryConfig dsExt src dedupOn overwrite project dataset table) = .ok job) :
    (Dedup dsExt src dedupOn overwrite project dataset table run wait).1 =
      ((wait job).1, ((wait job).2).map DedupError.waitError) := by
  simp [Dedup, h, hrun]

/-- Witness for C3 with a wait that reports both a status and an error. -/
theorem dedup_returns_status_with_error_witness :
    (containsPartitionQualifier "mytable$20230101" = true ∧
      (fun (_ : QueryConfig) => (.ok 0 : Except Unit Nat)) (dedupQueryConfig ⟨"proj", "ds"⟩ "src" "test_id" false "destproj" "destds" "mytable$20230101") = .ok 0) ∧
    (Dedup (⟨"proj", "ds"⟩ : Dataset) "src" "test_id" false "destproj" "destds" "mytable$20230101"
        (fun _ => (.ok 0 : Except Unit Nat))
        (fun _ => ((some 3, some ()) : Option Nat × Option Unit))).1 =
      (some 3, some (DedupError.waitError ())) :=
  ⟨⟨by decide, rfl⟩,
   dedup_returns_status_with_error ⟨"proj", "ds"⟩ "src" "test_id" false "destproj" "destds"
     "mytable$20230101" (fun _ => .ok 0) (fun _ => (some 3, some ())) 0 (by decide) rfl⟩

/-- C7: the query configuration `Dedup` submits (once the precondition
holds) carries write disposition truncate exactly when `overwrite` is true,
and otherwise leaves the service default (`unspecified`); every submitted
configuration is that one; and a submission failure is surfaced to the
caller as a run error, not handled locally. -/
theorem dedup_write_disposition {J S E W : Type} (dsExt : Dataset)
    (src dedupOn : String) (overwrite : Bool) (project dataset table : String)
    (run : QueryConfig → Except E J) (wait : J → Option S × Option W)
    (h : containsPartitionQualifier table = true) :
    (dedupQueryConfig dsExt src dedupOn overwrite project dataset table).writeDisposition =
      (if overwrite then .writeTruncate else .unspecified) ∧
    (∀ c ∈ (Dedup dsExt src dedupOn overwrite project dataset table run wait).2,
      c.writeDisposition = (if overwrite then .writeTruncate else .unspecified)) ∧
    (∀ e, run (dedupQueryConfig dsExt src dedupOn overwrite project dataset table) = .error e →
      (Dedup dsExt src dedupOn overwrite project dataset table run wait).1 =
        (none, some (.runError e))) := by
  have hw : (dedupQueryConfig dsExt src dedupOn overwrite project dataset table).writeDisposition =
      (if overwrite then .writeTruncate else .unspecified) := by
    cases overwrite <;> simp [dedupQueryConfig, DestinationQuery, mkQuery]
  refine ⟨hw, ?_, ?_⟩
  · intro c hc
    rcases hr : run (dedupQueryConfig dsExt src dedupOn overwrite project dataset table)
      with e | job <;>
    · simp [Dedup, h, hr] at hc
      rw [hc]
      exact hw
  · intro e he
    simp [Dedup, h, he]

/-- Witness for C7 with overwrite off and a failing submission. -/
theorem dedup_write_disposition_witness :
    containsPartitionQualifier "mytable$20230101" = true ∧
    (dedupQueryConfig ⟨"proj", "ds"⟩ "src" "test_id" false "destproj" "destds" "mytable$20230101").writeDisposition =
      (if false then .writeTruncate else .unspecified) ∧
    (Dedup (⟨"proj", "ds"⟩ : Dataset) "src" "test_id" false "destproj" "destds" "mytable$20230101"
        (fun _ => (.error () : Except Unit Nat))
        (fun _ => ((some 0, none) : Option Nat × Option Unit))).1 =
      (none, some (.runError ())) :=
  have hd := dedup_write_disposition (⟨"proj", "ds"⟩ : Dataset) "src" "test_id" false
    "destproj" "destds" "mytable$20230101"
    (fun _ => (.error () : Except Unit Nat))
    (fun _ => ((some 0, none) : Option Nat × Option Unit)) (by decide)
  ⟨by decide, hd.1, hd.2.2 () rfl⟩

/-- C8: `GetPartitionInfo` against the spec-modelled partition-summary
service: when no summary row has the requested partition id it returns the
no-rows error; when exactly the one partition with that id exists it returns
that row, whose partition id equals the requested one; and any successful
return carries a `PartitionInfo` whose id equals the requested one. -/
theorem getPartitionInfo_partition_id (dsExt : Dataset) (tbl : List PartitionInfo)
    (table partition : String) :
    ((tbl.filter (fun p => p.PartitionID == partition) = [] →
        (GetPartitionInfoOn dsExt tbl table partition).2 = some .noRows) ∧
     (∀ p, tbl.filter (fun p => p.PartitionID == partition) = [p] →
        GetPartitionInfoOn dsExt tbl table partition = (p, none) ∧
        p.PartitionID = partition) ∧
     ((GetPartitionInfoOn dsExt tbl table partition).2 = none →
        (GetPartitionInfoOn dsExt tbl table partition).1.PartitionID = partition)) := by
  have hmem : ∀ p ∈ tbl.filter (fun p => p.PartitionID == partition),
      p.PartitionID = partition := by
    intro p hp
    exact eq_of_beq (List.mem_filter.mp hp).2
  rcases hf : tbl.filter (fun p => p.PartitionID == partition) with _ | ⟨p1, _ | ⟨p2, rest2⟩⟩
  · refine ⟨fun _ => ?_, fun p hp => ?_, fun hnone => ?_⟩
    · simp [GetPartitionInfoOn, GetPartitionInfo, partitionInfoResult,
        runPartitionSummaryQuery, QueryAndParse, next, hf]
    · rw [hf] at hp
      exact List.noConfusion hp
    · rw [show (GetPartitionInfoOn dsExt tbl table partition).2 = some QPError.noRows by
        simp [GetPartitionInfoOn, GetPartitionInfo, partitionInfoResult,
          runPartitionSummaryQuery, QueryAndParse, next, hf]] at hnone
      exact Option.noConfusion hnone
  · have hres : GetPartitionInfoOn dsExt tbl table partition = (p1, none) := by
      simp [GetPartitionInfoOn, GetPartitionInfo, partitionInfoResult,
        runPartitionSummaryQuery, QueryAndParse, next, hf]
    have hid : p1.PartitionID = partition := hmem p1 (by rw [hf]; exact List.mem_singleton.mpr rfl)
    refine ⟨fun hemp => ?_, fun p hp => ?_, fun _ => ?_⟩
    · rw [hf] at hemp
      exact List.noConfusion hemp
    · rw [hf] at hp
      obtain rfl : p1 = p := (List.cons.inj hp).1
      exact ⟨hres, hid⟩
    · rw [hres]
      exact hid
  · have hres : (GetPartitionInfoOn dsExt tbl table partition).2 = some .multipleRows := by
      simp [GetPartitionInfoOn, GetPartitionInfo, partitionInfoResult,
        runPartitionSummaryQuery, QueryAndParse, next, hf]
    refine ⟨fun hemp => ?_, fun p hp => ?_, fun hnone => ?_⟩
    · rw [hf] at hemp
      exact List.noConfusion hemp
    · rw [hf] at hp
      exact List.noConfusion ((List.cons.inj hp).2)
    · rw [hres] at hnone
      exact Option.noConfusion hnone

/-- Witness for C8 on a one-partition summary table. -/
theorem getPartitionInfo_partition_id_witness :
    ([⟨"20230101", 1, 2⟩] : List PartitionInfo).filter
        (fun p => p.PartitionID == "20230101") = [⟨"20230101", 1, 2⟩] ∧
    (GetPartitionInfoOn (⟨"proj", "ds"⟩ : Dataset) [⟨"20230101", 1, 2⟩] "tbl" "20230101" =
        (⟨"20230101", 1, 2⟩, none) ∧
      PartitionInfo.PartitionID ⟨"20230101", 1, 2⟩ = "20230101") :=
  ⟨by decide,
   (getPartitionInfo_partition_id ⟨"proj", "ds"⟩ [⟨"20230101", 1, 2⟩] "tbl" "20230101").2.1
     ⟨"20230101", 1, 2⟩ (by decide)⟩

/-- On any error, the pair built by `partitionInfoResult` carries the
zero-valued `PartitionInfo{}`. -/
theorem partitionInfoResult_zero_of_error {E : Type}
    (out : QPOutcome PartitionInfo PartitionInfo E Unit)
    (h : (partitionInfoResult out).2 ≠ none) :
    (partitionInfoResult out).1 = ({} : PartitionInfo) := by
  unfold partitionInfoResult at *
  rcases he : out.error with _ | e
  · simp [he] at h
  · simp [he]

/-- C10: whenever `GetPartitionInfo` returns an error, the `PartitionInfo`
returned alongside it is the zero value — never a partially populated
record — for every service. -/
theorem getPartitionInfo_zero_on_error {E : Type} (dsExt : Dataset)
    (read : QueryConfig → Except E (List PartitionInfo)) (table partition : String)
    (h : (GetPartitionInfo dsExt read table partition).2 ≠ none) :
    (GetPartitionInfo dsExt read table partition).1 = ({} : PartitionInfo) :=
  partitionInfoResult_zero_of_error _ h

/-- Witness for C10 on a service yielding no rows. -/
theorem getPartitionInfo_zero_on_error_witness :
    (GetPartitionInfo (⟨"proj", "ds"⟩ : Dataset)
        (fun _ => (.ok [] : Except Unit (List PartitionInfo))) "tbl" "20230101").2 ≠ none ∧
    (GetPartitionInfo (⟨"proj", "ds"⟩ : Dataset)
        (fun _ => (.ok [] : Except Unit (List PartitionInfo))) "tbl" "20230101").1 =
      ({} : PartitionInfo) := by
  have h2 : (GetPartitionInfo (⟨"proj", "ds"⟩ : Dataset)
      (fun _ => (.ok [] : Except Unit (List PartitionInfo))) "tbl" "20230101").2 =
      some .noRows := rfl
  have hne : (GetPartitionInfo (⟨"proj", "ds"⟩ : Dataset)
      (fun _ => (.ok [] : Except Unit (List PartitionInfo))) "tbl" "20230101").2 ≠ none := by
    rw [h2]
    exact Option.some_ne_none _
  exact ⟨hne, getPartitionInfo_zero_on_error _ _ _ _ hne⟩

end Bqext
